import Mathlib

/-!
Verification of the storage persister (`src/examples/vue/persister/src/persister.ts`,
function `createPersister`).

The wrapper returned by `createPersister` is embedded as the executable function
`createPersister` below.  JavaScript run-time values are embedded as the inductive
type `JVal` (with an explicit `undefined` constructor, since truthiness of `timestamp`
and dropped object properties under `JSON.stringify` matter to the persister).
The default serializer and deserializer (`JSON.stringify` / `JSON.parse`) are
embedded as an executable JSON printer (`printVal`) and a fuel-indexed JSON
parser (`parseVal`); numbers are modelled as integers.

External effects (the storage medium, the underlying `queryFn`, the query client)
are modelled by an environment `Env` carrying the outcome of each external call,
and the wrapper records the calls it performs in an operation trace `List Op`.
A rejected promise is an `Except.error`; the final `storage.setItem` call is not
awaited in the source, so its outcome is recorded in the trace but never
consulted for the result of the wrapper.
-/

/-- JavaScript strings are modelled as lists of characters. -/
abbrev Str := List Char

/-- A JavaScript run-time value, as far as the persister observes it:
`undefined`, `null`, booleans, (integer) numbers, strings, arrays and
plain objects with ordered fields. -/
inductive JVal where
  | undefined
  | null
  | bool (b : Bool)
  | num (n : Int)
  | str (s : Str)
  | arr (elems : List JVal)
  | obj (fields : List (Str × JVal))

/-- Is the value literally `undefined`? -/
def JVal.isUndefined : JVal → Bool
  | .undefined => true
  | _ => false

/-- JavaScript truthiness: `undefined`, `null`, `false`, `0` and the empty
string are falsy, everything else (including every array and object) is truthy. -/
def jsTruthy : JVal → Bool
  | .undefined => false
  | .null => false
  | .bool b => b
  | .num n => decide (n ≠ 0)
  | .str s => decide (s ≠ [])
  | .arr _ => true
  | .obj _ => true

/-- Property lookup on a field list; later duplicate keys win, a missing key
reads as `undefined` (JavaScript object semantics). -/
def lookupField (fs : List (Str × JVal)) (f : Str) : JVal :=
  match List.find? (fun p => decide (p.1 = f)) fs.reverse with
  | some p => p.2
  | none => .undefined

/-- Property access on a value that is known not to be `null`/`undefined`:
objects look the field up, primitives and arrays read named fields as
`undefined`. -/
def fieldOf (v : JVal) (f : Str) : JVal :=
  match v with
  | .obj fs => lookupField fs f
  | _ => .undefined

/-- Optional-chained property access `v?.f`. -/
def optChainField (v : JVal) (f : Str) : JVal :=
  match v with
  | .undefined => .undefined
  | .null => .undefined
  | _ => fieldOf v f

/-- Errors a wrapper invocation can reject with: an externally supplied
rejection (storage or fetch), the `TypeError` of a property access on
`null`/`undefined`, or the `SyntaxError` of `JSON.parse`. -/
inductive Err where
  | external (code : Nat)
  | typeError
  | syntaxError
deriving DecidableEq

/-- Plain (throwing) property access `v.f`: a `TypeError` on `null`/`undefined`,
otherwise `fieldOf`. -/
def jsGet (v : JVal) (f : Str) : Except Err JVal :=
  match v with
  | .undefined => .error .typeError
  | .null => .error .typeError
  | _ => .ok (fieldOf v f)

/-- Strict equality `v === str s` against a string literal. -/
def isStrEq (v : JVal) (s : Str) : Bool :=
  match v with
  | .str t => decide (t = s)
  | _ => false

/-- The character of a decimal digit value. -/
def digitChar (d : Nat) : Char := Char.ofNat (48 + d)

/-- Decimal digits of a positive number, most significant first; the fuel
only bounds the recursion depth (the number itself is always enough fuel). -/
def printNatAux : Nat → Nat → Str
  | 0, _ => []
  | fuel + 1, n => if n = 0 then [] else printNatAux fuel (n / 10) ++ [digitChar (n % 10)]

/-- Print a natural number in decimal. -/
def printNat (n : Nat) : Str :=
  if n = 0 then ['0'] else printNatAux n n

/-- Print an integer in decimal (no `-0`, matching `JSON.stringify` on the
integers the persister produces). -/
def printInt (n : Int) : Str :=
  if n < 0 then '-' :: printNat n.natAbs else printNat n.toNat

/-- Value of a decimal digit character. -/
def digitVal (c : Char) : Nat := c.toNat - 48

/-- Numeric value of a list of decimal digit characters (most significant first). -/
def natFromDigits (cs : Str) : Nat :=
  cs.foldl (fun a c => a * 10 + digitVal c) 0

/-- Partial embedding of JavaScript `ToNumber` on strings: the empty string is
`0`, otherwise an optionally signed run of decimal digits; anything else
(floats, exponents, hex, garbage) is modelled as `NaN` (`none`). -/
def strToNum (s : Str) : Option Int :=
  match s with
  | [] => some 0
  | '-' :: r => if r ≠ [] ∧ r.all Char.isDigit then some (-(natFromDigits r : Int)) else none
  | '+' :: r => if r ≠ [] ∧ r.all Char.isDigit then some ((natFromDigits r : Int)) else none
  | _ => if s.all Char.isDigit then some ((natFromDigits s : Int)) else none

/-- Partial embedding of JavaScript `ToNumber`; `none` stands for `NaN`.
Arrays and objects coerce through strings in JavaScript; that path is modelled
as `NaN`, which is all the persister can meet on its numeric comparison. -/
def toNum : JVal → Option Int
  | .undefined => none
  | .null => some 0
  | .bool b => some (if b then 1 else 0)
  | .num n => some n
  | .str s => strToNum s
  | .arr _ => none
  | .obj _ => none

/-- The expiry test `now - v > maxAge` with JavaScript coercion: a `NaN`
operand makes the comparison false. -/
def jsSubGT (now : Int) (v : JVal) (maxAge : Int) : Bool :=
  match toNum v with
  | some t => decide (now - t > maxAge)
  | none => false

/-- Lower-case hexadecimal digit (only used for values below 16). -/
def hexDigit (n : Nat) : Char :=
  if n < 10 then Char.ofNat (48 + n) else Char.ofNat (87 + n)

/-- Escape a single character the way `JSON.stringify` does: quote, backslash
and the named control escapes, remaining control characters as `\u00XX`. -/
def escapeChar (c : Char) : Str :=
  if c = '"' then ['\\', '"']
  else if c = '\\' then ['\\', '\\']
  else if c = Char.ofNat 8 then ['\\', 'b']
  else if c = Char.ofNat 9 then ['\\', 't']
  else if c = Char.ofNat 10 then ['\\', 'n']
  else if c = Char.ofNat 12 then ['\\', 'f']
  else if c = Char.ofNat 13 then ['\\', 'r']
  else if c.toNat < 32 then ['\\', 'u', '0', '0', hexDigit (c.toNat / 16), hexDigit (c.toNat % 16)]
  else [c]

/-- Escape the body of a JSON string. -/
def escapeStr (s : Str) : Str :=
  match s with
  | [] => []
  | c :: cs => escapeChar c ++ escapeStr cs

/-- Print a JSON string literal, quotes included. -/
def printStr (s : Str) : Str := '"' :: escapeStr s ++ ['"']

/-- The JSON literal `null`. -/
def nullLit : Str := ['n', 'u', 'l', 'l']

/-- The JSON literal `true`. -/
def trueLit : Str := ['t', 'r', 'u', 'e']

/-- The JSON literal `false`. -/
def falseLit : Str := ['f', 'a', 'l', 's', 'e']

/-- Comma-join already printed pieces. -/
def joinComma : List Str → Str
  | [] => []
  | [s] => s
  | s :: rest => s ++ ',' :: joinComma rest

mutual

/-- `JSON.stringify` of a value, as the persister uses it.  An `undefined`
array element prints as `null` exactly like in JavaScript; `undefined` object
members are dropped by `collectMembers`; a top-level `undefined` is handled by
`stringify` below. -/
def printVal : JVal → Str
  | .undefined => nullLit
  | .null => nullLit
  | .bool true => trueLit
  | .bool false => falseLit
  | .num n => printInt n
  | .str s => printStr s
  | .arr xs => '[' :: (joinComma (collectElems xs) ++ [']'])
  | .obj fs => '{' :: (joinComma (collectMembers fs) ++ ['}'])

/-- Printed forms of the elements of an array. -/
def collectElems : List JVal → List Str
  | [] => []
  | v :: vs => printVal v :: collectElems vs

/-- Printed forms of the members of an object; members whose value is
`undefined` are dropped, as `JSON.stringify` drops them. -/
def collectMembers : List (Str × JVal) → List Str
  | [] => []
  | (k, v) :: fs =>
    if v.isUndefined then collectMembers fs
    else (printStr k ++ ':' :: printVal v) :: collectMembers fs

end

/-- Top-level `JSON.stringify`: `undefined` serializes to no string at all. -/
def stringify (v : JVal) : Option Str :=
  match v with
  | .undefined => none
  | _ => some (printVal v)

/-- Consume an expected literal tail such as `ull` of `null`. -/
def dropLit : Str → Str → Option Str
  | [], cs => some cs
  | p :: ps, c :: cs => if c = p then dropLit ps cs else none
  | _ :: _, [] => none

/-- Value of a hexadecimal digit character (both letter cases accepted, as in
`JSON.parse`). -/
def hexVal (c : Char) : Option Nat :=
  if c.isDigit then some (c.toNat - 48)
  else if 97 ≤ c.toNat && c.toNat ≤ 102 then some (c.toNat - 87)
  else if 65 ≤ c.toNat && c.toNat ≤ 70 then some (c.toNat - 55)
  else none

/-- Parse the body of a JSON string literal after the opening quote, returning
the decoded string and the input after the closing quote. -/
def parseStrBody : Str → Option (Str × Str)
  | [] => none
  | c :: cs =>
    if c = '"' then some ([], cs)
    else if c = '\\' then
      match cs with
      | [] => none
      | e :: cs2 =>
        if e = 'u' then
          match cs2 with
          | h1 :: h2 :: h3 :: h4 :: cs3 =>
            match hexVal h1, hexVal h2, hexVal h3, hexVal h4 with
            | some a, some b, some x, some y =>
              match parseStrBody cs3 with
              | some (s, r) => some (Char.ofNat (((a * 16 + b) * 16 + x) * 16 + y) :: s, r)
              | none => none
            | _, _, _, _ => none
          | _ => none
        else
          match
            (if e = '"' then some '"'
             else if e = '\\' then some '\\'
             else if e = '/' then some '/'
             else if e = 'b' then some (Char.ofNat 8)
             else if e = 't' then some (Char.ofNat 9)
             else if e = 'n' then some (Char.ofNat 10)
             else if e = 'f' then some (Char.ofNat 12)
             else if e = 'r' then some (Char.ofNat 13)
             else none) with
          | some d =>
            match parseStrBody cs2 with
            | some (s, r) => some (d :: s, r)
            | none => none
          | none => none
    else
      match parseStrBody cs with
      | some (s, r) => some (c :: s, r)
      | none => none

/-- Split a maximal run of decimal digits off the front of the input. -/
def takeDigits : Str → Str × Str
  | [] => ([], [])
  | c :: cs =>
    if c.isDigit then
      let p := takeDigits cs
      (c :: p.1, p.2)
    else ([], c :: cs)

/-- Parse a nonempty run of decimal digits as a natural number. -/
def parseNat (cs : Str) : Option (Nat × Str) :=
  let p := takeDigits cs
  if p.1 = [] then none else some (natFromDigits p.1, p.2)

mutual

/-- Fuel-indexed JSON parser for values, faithful to `JSON.parse` on the
grammar the printer emits (no inter-token whitespace, integer numerals). -/
def parseVal : Nat → Str → Option (JVal × Str)
  | 0, _ => none
  | _ + 1, [] => none
  | fuel + 1, c :: r =>
    if c = 'n' then
      match dropLit ['u', 'l', 'l'] r with
      | some r2 => some (.null, r2)
      | none => none
    else if c = 't' then
      match dropLit ['r', 'u', 'e'] r with
      | some r2 => some (.bool true, r2)
      | none => none
    else if c = 'f' then
      match dropLit ['a', 'l', 's', 'e'] r with
      | some r2 => some (.bool false, r2)
      | none => none
    else if c = '"' then
      match parseStrBody r with
      | some (s, r2) => some (.str s, r2)
      | none => none
    else if c = '[' then
      if r.head? = some ']' then some (.arr [], r.tail)
      else
        match parseElems fuel r with
        | some (vs, r2) => some (.arr vs, r2)
        | none => none
    else if c = '{' then
      if r.head? = some '}' then some (.obj [], r.tail)
      else
        match parseMembers fuel r with
        | some (fs, r2) => some (.obj fs, r2)
        | none => none
    else if c = '-' then
      match parseNat r with
      | some (m, r2) => some (.num (-(m : Int)), r2)
      | none => none
    else if c.isDigit then
      match parseNat (c :: r) with
      | some (m, r2) => some (.num ((m : Int)), r2)
      | none => none
    else none

/-- Parse one or more comma-separated array elements and the closing bracket. -/
def parseElems : Nat → Str → Option (List JVal × Str)
  | 0, _ => none
  | fuel + 1, cs =>
    match parseVal fuel cs with
    | some (v, r) =>
      match r with
      | ',' :: r2 =>
        match parseElems fuel r2 with
        | some (vs, r3) => some (v :: vs, r3)
        | none => none
      | ']' :: r2 => some ([v], r2)
      | _ => none
    | none => none

/-- Parse one or more comma-separated object members and the closing brace. -/
def parseMembers : Nat → Str → Option (List (Str × JVal) × Str)
  | 0, _ => none
  | fuel + 1, cs =>
    match cs with
    | '"' :: r =>
      match parseStrBody r with
      | some (k, r2) =>
        match r2 with
        | ':' :: r3 =>
          match parseVal fuel r3 with
          | some (v, r4) =>
            match r4 with
            | ',' :: r5 =>
              match parseMembers fuel r5 with
              | some (fs, r6) => some ((k, v) :: fs, r6)
              | none => none
            | '}' :: r5 => some ([(k, v)], r5)
            | _ => none
          | none => none
        | _ => none
      | none => none
    | _ => none

end

/-- Default serializer of the persister (`JSON.stringify`); the persister only
ever serializes an object, for which `stringify` is total. -/
def serializeD (v : JVal) : Str := (stringify v).getD []

/-- Default deserializer of the persister (`JSON.parse`): parse the whole
string or throw a `SyntaxError`. -/
def parseD (s : Str) : Except Err JVal :=
  match parseVal (s.length + 1) s with
  | some (v, []) => .ok v
  | _ => .error .syntaxError

/-- Modelled from the spec: `hashKey` of `@tanstack/query-core` is not part of
this repository; the spec only requires a deterministic string hash of the
query identity, which the default hash realizes by serializing the key. -/
def hashKey (k : JVal) : Str := serializeD k

/-- One observable operation of a wrapper invocation, in order of occurrence:
a storage read, a storage delete, a query-cache rehydration, an invocation of
the underlying `queryFn`, or a storage write. -/
inductive Op where
  | getItem (key : Str)
  | removeItem (key : Str)
  | cacheBuild (queryKey : JVal) (queryHash : Str) (state : JVal)
  | fetch
  | setItem (key : Str) (value : Str)

/-- Is the operation the `queryFn` invocation? -/
def Op.isFetch : Op → Bool
  | .fetch => true
  | _ => false

/-- Is the operation a storage write? -/
def Op.isSetItem : Op → Bool
  | .setItem _ _ => true
  | _ => false

/-- Is the operation a storage access of any kind? -/
def Op.isStorage : Op → Bool
  | .getItem _ => true
  | .removeItem _ => true
  | .setItem _ _ => true
  | _ => false

/-- Configuration of `createPersister`, with the defaults of the source:
empty buster, 24-hour max age, `JSON.stringify` / `JSON.parse`.
`storageConfigured` is `storage != null`. -/
structure Config where
  storageConfigured : Bool
  buster : Str := []
  maxAge : Int := 1000 * 60 * 60 * 24
  serialize : JVal → Str := serializeD
  deserialize : Str → Except Err JVal := parseD

/-- Outcomes of the external calls one wrapper invocation can make:
the query-client state for the key, the storage results, the `queryFn`
result, and the values of the three `Date.now()` call sites (the expiry
check, `dataUpdatedAt`, and the record `timestamp`). -/
structure Env where
  queryState : JVal
  getItemResult : Except Err (Option Str)
  removeItemResult : Except Err Unit
  setItemResult : Except Err Unit
  queryFnResult : Except Err JVal
  nowCheck : Int
  nowData : Int
  nowStamp : Int

/-- The success state the persister writes back after a live fetch, exactly
the object literal of the source (field order preserved). -/
def freshState (env : Env) (r : JVal) : JVal :=
  .obj [("data".toList, r),
        ("dataUpdateCount".toList, .num 0),
        ("dataUpdatedAt".toList, .num env.nowData),
        ("status".toList, .str "success".toList),
        ("error".toList, .null),
        ("errorUpdateCount".toList, .num 0),
        ("errorUpdatedAt".toList, .num 0),
        ("fetchFailureCount".toList, .num 0),
        ("fetchFailureReason".toList, .null),
        ("fetchMeta".toList, .null),
        ("fetchStatus".toList, .str "idle".toList),
        ("isInvalidated".toList, .bool false)]

/-- The persisted record the persister writes back after a live fetch, exactly
the object literal passed to `serialize` in the source. -/
def freshRecord (cfg : Config) (env : Env) (queryKey : JVal) (queryHash : Str) (r : JVal) : JVal :=
  .obj [("state".toList, freshState env r),
        ("queryKey".toList, queryKey),
        ("queryHash".toList, .str queryHash),
        ("timestamp".toList, .num env.nowStamp),
        ("buster".toList, .str cfg.buster)]

/-- The tail of every invocation that reaches the live fetch: await `queryFn`,
then, when a storage medium is configured, fire `setItem` with the serialized
fresh record without awaiting it, and resolve with the fetch result. -/
def afterLookup (cfg : Config) (env : Env) (queryKey : JVal) (queryHash : Str)
    (ops : List Op) : Except Err JVal × List Op :=
  match env.queryFnResult with
  | .error e => (.error e, ops ++ [.fetch])
  | .ok r =>
    if cfg.storageConfigured then
      (.ok r,
       ops ++ [.fetch, .setItem queryHash (cfg.serialize (freshRecord cfg env queryKey queryHash r))])
    else (.ok r, ops ++ [.fetch])

/-- The wrapper returned by `createPersister`, applied to one invocation:
given the configuration, the outcomes of the external calls and the query key
of the context, produce the settled result of the returned promise together
with the trace of performed operations.  This is a line-by-line embedding of
the body of the arrow function returned by `createPersister`. -/
def createPersister (cfg : Config) (env : Env) (queryKey : JVal) : Except Err JVal × List Op :=
  let queryHash := hashKey queryKey
  if !jsTruthy (optChainField env.queryState "data".toList) && cfg.storageConfigured then
    match env.getItemResult with
    | .error e => (.error e, [.getItem queryHash])
    | .ok storedData =>
      if (match storedData with
          | some s => !s.isEmpty
          | none => false) then
        match cfg.deserialize (storedData.getD []) with
        | .error e => (.error e, [.getItem queryHash])
        | .ok persistedQuery =>
          match jsGet persistedQuery "timestamp".toList with
          | .error e => (.error e, [.getItem queryHash])
          | .ok ts =>
            if jsTruthy ts then
              let expired := jsSubGT env.nowCheck ts cfg.maxAge
              match jsGet persistedQuery "buster".toList with
              | .error e => (.error e, [.getItem queryHash])
              | .ok b =>
                let busted := !isStrEq b cfg.buster
                if expired || busted then
                  match env.removeItemResult with
                  | .error e => (.error e, [.getItem queryHash, .removeItem queryHash])
                  | .ok _ =>
                    afterLookup cfg env queryKey queryHash
                      [.getItem queryHash, .removeItem queryHash]
                else
                  match jsGet persistedQuery "state".toList with
                  | .error e => (.error e, [.getItem queryHash])
                  | .ok st =>
                    match jsGet st "data".toList with
                    | .error e => (.error e, [.getItem queryHash, .cacheBuild queryKey queryHash st])
                    | .ok d => (.ok d, [.getItem queryHash, .cacheBuild queryKey queryHash st])
            else
              match env.removeItemResult with
              | .error e => (.error e, [.getItem queryHash, .removeItem queryHash])
              | .ok _ =>
                afterLookup cfg env queryKey queryHash
                  [.getItem queryHash, .removeItem queryHash]
      else afterLookup cfg env queryKey queryHash [.getItem queryHash]
  else afterLookup cfg env queryKey queryHash []

/-! ### Path lemmas for the wrapper -/

/-- Helper: the lookup-hit path.  A stored record with a truthy numeric
timestamp within `maxAge` and a matching buster rehydrates the cache and
returns the persisted data. -/
theorem hitPath_eq (cfg : Config) (env : Env) (qk : JVal) (s : Str)
    (fs sfs : List (Str × JVal)) (t : Int) (d : JVal)
    (hst : cfg.storageConfigured = true)
    (hlive : jsTruthy (optChainField env.queryState "data".toList) = false)
    (hget : env.getItemResult = .ok (some s))
    (hs : s.isEmpty = false)
    (hde : cfg.deserialize s = .ok (.obj fs))
    (hts : lookupField fs "timestamp".toList = .num t)
    (ht0 : t ≠ 0)
    (hfresh : env.nowCheck - t ≤ cfg.maxAge)
    (hbust : lookupField fs "buster".toList = .str cfg.buster)
    (hstate : lookupField fs "state".toList = .obj sfs)
    (hdata : lookupField sfs "data".toList = d) :
    createPersister cfg env qk =
      (.ok d, [.getItem (hashKey qk), .cacheBuild qk (hashKey qk) (.obj sfs)]) := by
  have hexp : jsSubGT env.nowCheck (.num t) cfg.maxAge = false := by
    simp only [jsSubGT, toNum, decide_eq_false_iff_not, not_lt]
    omega
  have htr : jsTruthy (.num t) = true := by
    simp only [jsTruthy, decide_eq_true_eq]
    exact ht0
  unfold createPersister
  rw [hlive, hst, hget]
  simp only [Bool.not_false, Bool.and_true, if_true, hs, Option.getD, hde, jsGet, fieldOf,
    hts, htr, hexp, hbust, isStrEq, hstate, hdata, Bool.not_false, Bool.or_self,
    Bool.false_or, decide_True, Bool.not_true, Bool.false_eq_true, if_false, decide_eq_true_eq]

/-- Helper: the invalidation path for a record with a falsy timestamp:
delete the record, fetch, write back. -/
theorem removePath_falsy_eq (cfg : Config) (env : Env) (qk : JVal) (s : Str)
    (fs : List (Str × JVal)) (v : JVal) (r : JVal)
    (hst : cfg.storageConfigured = true)
    (hlive : jsTruthy (optChainField env.queryState "data".toList) = false)
    (hget : env.getItemResult = .ok (some s))
    (hs : s.isEmpty = false)
    (hde : cfg.deserialize s = .ok (.obj fs))
    (hts : lookupField fs "timestamp".toList = v)
    (hfalsy : jsTruthy v = false)
    (hrem : env.removeItemResult = .ok ())
    (hq : env.queryFnResult = .ok r) :
    createPersister cfg env qk =
      (.ok r, [.getItem (hashKey qk), .removeItem (hashKey qk), .fetch,
               .setItem (hashKey qk) (cfg.serialize (freshRecord cfg env qk (hashKey qk) r))]) := by
  unfold createPersister
  rw [hlive, hst, hget]
  simp only [Bool.not_false, Bool.and_true, if_true, hs, Option.getD, hde, jsGet, fieldOf,
    hts, hfalsy, Bool.false_eq_true, if_false, hrem]
  unfold afterLookup
  rw [hq, hst]
  simp only [if_true, List.cons_append, List.nil_append]

/-- Helper: the invalidation path for a record with a truthy numeric timestamp
that is expired or buster-mismatched: delete the record, fetch, write back. -/
theorem removePath_invalid_eq (cfg : Config) (env : Env) (qk : JVal) (s : Str)
    (fs : List (Str × JVal)) (t : Int) (r : JVal)
    (hst : cfg.storageConfigured = true)
    (hlive : jsTruthy (optChainField env.queryState "data".toList) = false)
    (hget : env.getItemResult = .ok (some s))
    (hs : s.isEmpty = false)
    (hde : cfg.deserialize s = .ok (.obj fs))
    (hts : lookupField fs "timestamp".toList = .num t)
    (ht0 : t ≠ 0)
    (hib : (jsSubGT env.nowCheck (.num t) cfg.maxAge
            || !isStrEq (lookupField fs "buster".toList) cfg.buster) = true)
    (hrem : env.removeItemResult = .ok ())
    (hq : env.queryFnResult = .ok r) :
    createPersister cfg env qk =
      (.ok r, [.getItem (hashKey qk), .removeItem (hashKey qk), .fetch,
               .setItem (hashKey qk) (cfg.serialize (freshRecord cfg env qk (hashKey qk) r))]) := by
  have htr : jsTruthy (.num t) = true := by
    simp only [jsTruthy, decide_eq_true_eq]
    exact ht0
  unfold createPersister
  rw [hlive, hst, hget]
  simp only [Bool.not_false, Bool.and_true, if_true, hs, Option.getD, hde, jsGet, fieldOf,
    hts, htr, hib, hrem]
  unfold afterLookup
  rw [hq, hst]
  simp only [if_true, List.cons_append, List.nil_append]

/-! ### Shared concrete samples for the witnesses -/

/-- Sample configuration: storage configured, all defaults of the source. -/
def cfgW : Config := { storageConfigured := true }

/-- Sample query key. -/
def qkW : JVal := .str ['k']

/-- Sample valid persisted record (timestamp 500, default buster). -/
def recW : JVal :=
  .obj [("timestamp".toList, .num 500),
        ("buster".toList, .str []),
        ("state".toList, .obj [("data".toList, .num 99)])]

/-- The sample record on the wire. -/
def strW : Str := serializeD recW

/-- Sample environment: no live data, the sample record in storage,
all external calls succeed, `queryFn` resolves with `7`. -/
def envW : Env :=
  { queryState := .undefined
    getItemResult := .ok (some strW)
    removeItemResult := .ok ()
    setItemResult := .ok ()
    queryFnResult := .ok (.num 7)
    nowCheck := 1000
    nowData := 1001
    nowStamp := 1002 }

/-- Expired sample environment: age of the sample record is one millisecond
over the default max age. -/
def envX : Env := { envW with nowCheck := 86400501 }

/-- Boundary sample environment: age of the sample record is exactly the
default max age. -/
def envB : Env := { envW with nowCheck := 86400500 }

/-- Claim C1: a persisted record found in storage with a (truthy) timestamp,
age at most `maxAge` and a buster equal to the configured buster makes the
wrapper rehydrate the live cache with the persisted state and return the
persisted data, without invoking `queryFn` and without writing to or removing
from storage. -/
theorem claim1_valid_hit (cfg : Config) (env : Env) (qk : JVal) (s : Str)
    (fs sfs : List (Str × JVal)) (t : Int) (d : JVal)
    (hst : cfg.storageConfigured = true)
    (hlive : jsTruthy (optChainField env.queryState "data".toList) = false)
    (hget : env.getItemResult = .ok (some s))
    (hs : s.isEmpty = false)
    (hde : cfg.deserialize s = .ok (.obj fs))
    (hts : lookupField fs "timestamp".toList = .num t)
    (ht0 : t ≠ 0)
    (hfresh : env.nowCheck - t ≤ cfg.maxAge)
    (hbust : lookupField fs "buster".toList = .str cfg.buster)
    (hstate : lookupField fs "state".toList = .obj sfs)
    (hdata : lookupField sfs "data".toList = d) :
    createPersister cfg env qk =
      (.ok d, [.getItem (hashKey qk), .cacheBuild qk (hashKey qk) (.obj sfs)]) :=
  hitPath_eq cfg env qk s fs sfs t d hst hlive hget hs hde hts ht0 hfresh hbust hstate hdata

theorem claim1_witness :
    createPersister cfgW envW qkW =
      (.ok (.num 99),
       [.getItem (hashKey qkW), .cacheBuild qkW (hashKey qkW) (.obj [("data".toList, .num 99)])]) :=
  claim1_valid_hit cfgW envW qkW strW
    [("timestamp".toList, .num 500), ("buster".toList, .str []),
     ("state".toList, .obj [("data".toList, .num 99)])]
    [("data".toList, .num 99)] 500 (.num 99)
    rfl rfl rfl rfl (by rfl) rfl (by decide) (by decide) rfl rfl rfl

/-- Claim C2: a persisted record whose age strictly exceeds `maxAge` is
removed from storage and the underlying `queryFn` is then invoked exactly
once; a record whose age equals `maxAge` exactly is not treated as expired
(here: with a matching buster it is served from storage). -/
theorem claim2_expired_strict (cfg : Config) (env env2 : Env) (qk : JVal) (s : Str)
    (fs sfs : List (Str × JVal)) (t : Int) (d r : JVal)
    (hst : cfg.storageConfigured = true)
    (hlive : jsTruthy (optChainField env.queryState "data".toList) = false)
    (hget : env.getItemResult = .ok (some s))
    (hs : s.isEmpty = false)
    (hde : cfg.deserialize s = .ok (.obj fs))
    (hts : lookupField fs "timestamp".toList = .num t)
    (ht0 : t ≠ 0)
    (hexp : env.nowCheck - t > cfg.maxAge)
    (hrem : env.removeItemResult = .ok ())
    (hq : env.queryFnResult = .ok r)
    (hlive2 : jsTruthy (optChainField env2.queryState "data".toList) = false)
    (hget2 : env2.getItemResult = .ok (some s))
    (hbnd : env2.nowCheck - t = cfg.maxAge)
    (hbust : lookupField fs "buster".toList = .str cfg.buster)
    (hstate : lookupField fs "state".toList = .obj sfs)
    (hdata : lookupField sfs "data".toList = d) :
    createPersister cfg env qk =
      (.ok r, [.getItem (hashKey qk), .removeItem (hashKey qk), .fetch,
               .setItem (hashKey qk) (cfg.serialize (freshRecord cfg env qk (hashKey qk) r))])
    ∧ (createPersister cfg env qk).snd.countP Op.isFetch = 1
    ∧ createPersister cfg env2 qk =
      (.ok d, [.getItem (hashKey qk), .cacheBuild qk (hashKey qk) (.obj sfs)]) := by
  have hib : (jsSubGT env.nowCheck (.num t) cfg.maxAge
      || !isStrEq (lookupField fs "buster".toList) cfg.buster) = true := by
    have h1 : jsSubGT env.nowCheck (.num t) cfg.maxAge = true := by
      simp only [jsSubGT, toNum, decide_eq_true_eq]
      exact hexp
    rw [h1, Bool.true_or]
  have h1 := removePath_invalid_eq cfg env qk s fs t r hst hlive hget hs hde hts ht0 hib hrem hq
  refine ⟨h1, ?_, ?_⟩
  · rw [h1]
    rfl
  · exact hitPath_eq cfg env2 qk s fs sfs t d hst hlive2 hget2 hs hde hts ht0 hbnd.le
      hbust hstate hdata

theorem claim2_witness :
    (createPersister cfgW envX qkW =
      (.ok (.num 7),
       [.getItem (hashKey qkW), .removeItem (hashKey qkW), .fetch,
        .setItem (hashKey qkW) (cfgW.serialize (freshRecord cfgW envX qkW (hashKey qkW) (.num 7)))]))
    ∧ (createPersister cfgW envX qkW).snd.countP Op.isFetch = 1
    ∧ createPersister cfgW envB qkW =
      (.ok (.num 99),
       [.getItem (hashKey qkW), .cacheBuild qkW (hashKey qkW) (.obj [("data".toList, .num 99)])]) :=
  claim2_expired_strict cfgW envX envB qkW strW
    [("timestamp".toList, .num 500), ("buster".toList, .str []),
     ("state".toList, .obj [("data".toList, .num 99)])]
    [("data".toList, .num 99)] 500 (.num 99) (.num 7)
    rfl rfl rfl rfl (by rfl) rfl (by decide) (by decide) rfl rfl rfl rfl (by decide)
    rfl rfl rfl

/-- Sample record with a mismatching buster (`v2`) and a fresh timestamp. -/
def recB5 : JVal :=
  .obj [("timestamp".toList, .num 500),
        ("buster".toList, .str ['v', '2']),
        ("state".toList, .obj [("data".toList, .num 99)])]

/-- Environment holding the mismatching-buster sample record. -/
def envB5 : Env := { envW with getItemResult := .ok (some (serializeD recB5)) }

/-- Claim C5: a persisted record whose buster differs from the configured
buster is removed from storage and `queryFn` is invoked, regardless of how
fresh its timestamp is (no freshness hypothesis appears). -/
theorem claim5_buster_mismatch (cfg : Config) (env : Env) (qk : JVal) (s : Str)
    (fs : List (Str × JVal)) (t : Int) (b r : JVal)
    (hst : cfg.storageConfigured = true)
    (hlive : jsTruthy (optChainField env.queryState "data".toList) = false)
    (hget : env.getItemResult = .ok (some s))
    (hs : s.isEmpty = false)
    (hde : cfg.deserialize s = .ok (.obj fs))
    (hts : lookupField fs "timestamp".toList = .num t)
    (ht0 : t ≠ 0)
    (hbust : lookupField fs "buster".toList = b)
    (hmis : isStrEq b cfg.buster = false)
    (hrem : env.removeItemResult = .ok ())
    (hq : env.queryFnResult = .ok r) :
    createPersister cfg env qk =
      (.ok r, [.getItem (hashKey qk), .removeItem (hashKey qk), .fetch,
               .setItem (hashKey qk) (cfg.serialize (freshRecord cfg env qk (hashKey qk) r))]) := by
  have hib : (jsSubGT env.nowCheck (.num t) cfg.maxAge
      || !isStrEq (lookupField fs "buster".toList) cfg.buster) = true := by
    rw [hbust, hmis]
    simp only [Bool.not_false, Bool.or_true]
  exact removePath_invalid_eq cfg env qk s fs t r hst hlive hget hs hde hts ht0 hib hrem hq

theorem claim5_witness :
    createPersister cfgW envB5 qkW =
      (.ok (.num 7),
       [.getItem (hashKey qkW), .removeItem (hashKey qkW), .fetch,
        .setItem (hashKey qkW)
          (cfgW.serialize (freshRecord cfgW envB5 qkW (hashKey qkW) (.num 7)))]) :=
  claim5_buster_mismatch cfgW envB5 qkW (serializeD recB5)
    [("timestamp".toList, .num 500), ("buster".toList, .str ['v', '2']),
     ("state".toList, .obj [("data".toList, .num 99)])]
    500 (.str ['v', '2']) (.num 7)
    rfl rfl rfl rfl (by rfl) rfl (by decide) rfl (by rfl) rfl rfl

/-- Sample record with no timestamp member at all. -/
def recM : JVal := .obj [("state".toList, .obj [("data".toList, .num 99)])]

/-- Environment holding the timestamp-less sample record. -/
def envM : Env := { envW with getItemResult := .ok (some (serializeD recM)) }

/-- Claim C6: a persisted record found in storage that is missing its
timestamp member is removed from storage and `queryFn` is invoked; the
malformed record is not fatal (the invocation still resolves with the fetch
result). -/
theorem claim6_missing_timestamp (cfg : Config) (env : Env) (qk : JVal) (s : Str)
    (fs : List (Str × JVal)) (r : JVal)
    (hst : cfg.storageConfigured = true)
    (hlive : jsTruthy (optChainField env.queryState "data".toList) = false)
    (hget : env.getItemResult = .ok (some s))
    (hs : s.isEmpty = false)
    (hde : cfg.deserialize s = .ok (.obj fs))
    (hts : lookupField fs "timestamp".toList = .undefined)
    (hrem : env.removeItemResult = .ok ())
    (hq : env.queryFnResult = .ok r) :
    createPersister cfg env qk =
      (.ok r, [.getItem (hashKey qk), .removeItem (hashKey qk), .fetch,
               .setItem (hashKey qk) (cfg.serialize (freshRecord cfg env qk (hashKey qk) r))]) :=
  removePath_falsy_eq cfg env qk s fs .undefined r hst hlive hget hs hde hts rfl hrem hq

theorem claim6_witness :
    createPersister cfgW envM qkW =
      (.ok (.num 7),
       [.getItem (hashKey qkW), .removeItem (hashKey qkW), .fetch,
        .setItem (hashKey qkW)
          (cfgW.serialize (freshRecord cfgW envM qkW (hashKey qkW) (.num 7)))]) :=
  claim6_missing_timestamp cfgW envM qkW (serializeD recM)
    [("state".toList, .obj [("data".toList, .num 99)])] (.num 7)
    rfl rfl rfl rfl (by rfl) rfl rfl rfl

/-- Sample record whose timestamp is present but `0`. -/
def recZ : JVal :=
  .obj [("timestamp".toList, .num 0),
        ("buster".toList, .str []),
        ("state".toList, .obj [("data".toList, .num 99)])]

/-- Environment holding the zero-timestamp sample record. -/
def envZ : Env := { envW with getItemResult := .ok (some (serializeD recZ)) }

/-- Claim C10: a persisted record whose timestamp member is present but falsy
(such as `0`) is handled exactly like a record missing its timestamp: it is
removed from storage and `queryFn` is invoked. -/
theorem claim10_falsy_timestamp (cfg : Config) (env : Env) (qk : JVal) (s : Str)
    (fs : List (Str × JVal)) (v r : JVal)
    (hst : cfg.storageConfigured = true)
    (hlive : jsTruthy (optChainField env.queryState "data".toList) = false)
    (hget : env.getItemResult = .ok (some s))
    (hs : s.isEmpty = false)
    (hde : cfg.deserialize s = .ok (.obj fs))
    (hts : lookupField fs "timestamp".toList = v)
    (hpresent : v ≠ .undefined)
    (hfalsy : jsTruthy v = false)
    (hrem : env.removeItemResult = .ok ())
    (hq : env.queryFnResult = .ok r) :
    createPersister cfg env qk =
      (.ok r, [.getItem (hashKey qk), .removeItem (hashKey qk), .fetch,
               .setItem (hashKey qk) (cfg.serialize (freshRecord cfg env qk (hashKey qk) r))]) :=
  removePath_falsy_eq cfg env qk s fs v r hst hlive hget hs hde hts hfalsy hrem hq

theorem claim10_witness :
    createPersister cfgW envZ qkW =
      (.ok (.num 7),
       [.getItem (hashKey qkW), .removeItem (hashKey qkW), .fetch,
        .setItem (hashKey qkW)
          (cfgW.serialize (freshRecord cfgW envZ qkW (hashKey qkW) (.num 7)))]) :=
  claim10_falsy_timestamp cfgW envZ qkW (serializeD recZ)
    [("timestamp".toList, .num 0), ("buster".toList, .str []),
     ("state".toList, .obj [("data".toList, .num 99)])]
    (.num 0) (.num 7)
    rfl rfl rfl rfl (by rfl) rfl (fun h => JVal.noConfusion h) rfl rfl rfl

/-- Sample configuration without a storage medium. -/
def cfgN : Config := { storageConfigured := false }

/-- Claim C7: with no storage medium configured, every invocation resolves or
rejects exactly as `queryFn` does, the only performed operation being the
fetch itself (no storage operation of any kind). -/
theorem claim7_no_storage (cfg : Config) (env : Env) (qk : JVal)
    (hst : cfg.storageConfigured = false) :
    createPersister cfg env qk = (env.queryFnResult, [.fetch])
    ∧ ((createPersister cfg env qk).snd.all fun o => !o.isStorage) = true := by
  have h : createPersister cfg env qk = (env.queryFnResult, [.fetch]) := by
    unfold createPersister afterLookup
    rw [hst]
    simp only [Bool.and_false, Bool.false_eq_true, if_false]
    cases hq : env.queryFnResult with
    | error e => simp only [List.nil_append]
    | ok r => simp only [List.nil_append]
  refine ⟨h, ?_⟩
  rw [h]
  rfl

theorem claim7_witness :
    (createPersister cfgN envW qkW = (envW.queryFnResult, [.fetch]))
    ∧ ((createPersister cfgN envW qkW).snd.all fun o => !o.isStorage) = true :=
  claim7_no_storage cfgN envW qkW rfl

/-- Claim C9: when `queryFn` is invoked and rejects, the rejection propagates
unchanged to the caller and no storage write is performed. -/
theorem claim9_fetch_failure (cfg : Config) (env : Env) (qk : JVal) (e : Err)
    (hq : env.queryFnResult = .error e)
    (hf : ((createPersister cfg env qk).snd.any Op.isFetch) = true) :
    (createPersister cfg env qk).fst = .error e
    ∧ ((createPersister cfg env qk).snd.all fun o => !o.isSetItem) = true := by
  revert hf
  unfold createPersister afterLookup
  rw [hq]
  repeat' split
  all_goals simp_all [Op.isFetch, Op.isSetItem]
  all_goals try (repeat' split)
  all_goals simp_all [Op.isFetch, Op.isSetItem]

/-- Environment for the fetch-failure witness: nothing in storage, `queryFn`
rejects. -/
def envF : Env := { envW with getItemResult := .ok none, queryFnResult := .error (.external 5) }

theorem claim9_witness :
    (createPersister cfgW envF qkW).fst = .error (.external 5)
    ∧ ((createPersister cfgW envF qkW).snd.all fun o => !o.isSetItem) = true :=
  claim9_fetch_failure cfgW envF qkW (.external 5) rfl rfl

/-- Claim C4: when storage is configured, `queryFn` is invoked and resolves,
the wrapper ends by writing, under the query hash, the serialized fresh
record (current timestamps, configured buster, query key, query hash, and the
success-shaped state defined by `freshState`), and resolves with the fetch
result. -/
theorem claim4_writeback (cfg : Config) (env : Env) (qk : JVal) (r : JVal)
    (hst : cfg.storageConfigured = true)
    (hq : env.queryFnResult = .ok r)
    (hf : ((createPersister cfg env qk).snd.any Op.isFetch) = true) :
    (createPersister cfg env qk).fst = .ok r
    ∧ (createPersister cfg env qk).snd.drop ((createPersister cfg env qk).snd.length - 2)
      = [.fetch, .setItem (hashKey qk) (cfg.serialize (freshRecord cfg env qk (hashKey qk) r))] := by
  revert hf
  unfold createPersister afterLookup
  rw [hq, hst]
  repeat' split
  all_goals simp_all [Op.isFetch]
  all_goals try (repeat' split)
  all_goals simp_all [Op.isFetch]

/-- Environment for the write-back witness: nothing in storage, fetch
succeeds. -/
def envG : Env := { envW with getItemResult := .ok none }

theorem claim4_witness :
    (createPersister cfgW envG qkW).fst = .ok (.num 7)
    ∧ (createPersister cfgW envG qkW).snd.drop ((createPersister cfgW envG qkW).snd.length - 2)
      = [.fetch, .setItem (hashKey qkW)
          (cfgW.serialize (freshRecord cfgW envG qkW (hashKey qkW) (.num 7)))] :=
  claim4_writeback cfgW envG qkW (.num 7) rfl rfl rfl

/-- Environment whose storage read rejects. -/
def envE1 : Env := { envW with getItemResult := .error (.external 1) }

/-- Environment holding the expired sample record and whose storage delete
rejects. -/
def envE2 : Env := { envX with removeItemResult := .error (.external 2) }

/-- Environment with empty storage whose storage write rejects. -/
def envE3 : Env :=
  { envW with getItemResult := .ok none, setItemResult := .error (.external 3) }

/-- Claim C3 is refuted on the write path: here `setItem` is invoked and its
result is a rejection, yet the wrapper resolves with the fetch result, because
the source fires `storage.setItem` without awaiting it. -/
theorem claim3_counterexample :
    envE3.setItemResult = .error (.external 3)
    ∧ ((createPersister cfgW envE3 qkW).snd.any Op.isSetItem) = true
    ∧ (createPersister cfgW envE3 qkW).fst = .ok (.num 7) :=
  ⟨rfl, rfl, rfl⟩

/-- Claim C3 (amended): rejections of `storage.getItem` and of
`storage.removeItem` propagate to the caller of the wrapper; the final
`storage.setItem` is fired without being awaited, so its rejection does not
propagate and the wrapper still resolves with the fetch result. -/
theorem claim3_amended (cfg : Config) (env1 env2 env3 : Env) (qk : JVal)
    (e1 e2 e3 : Err) (s : Str) (fs : List (Str × JVal)) (t : Int) (r : JVal)
    (hst : cfg.storageConfigured = true)
    (hlive1 : jsTruthy (optChainField env1.queryState "data".toList) = false)
    (hget1 : env1.getItemResult = .error e1)
    (hlive2 : jsTruthy (optChainField env2.queryState "data".toList) = false)
    (hget2 : env2.getItemResult = .ok (some s))
    (hs : s.isEmpty = false)
    (hde : cfg.deserialize s = .ok (.obj fs))
    (hts : lookupField fs "timestamp".toList = .num t)
    (ht0 : t ≠ 0)
    (hexp : env2.nowCheck - t > cfg.maxAge)
    (hrem2 : env2.removeItemResult = .error e2)
    (hlive3 : jsTruthy (optChainField env3.queryState "data".toList) = false)
    (hget3 : env3.getItemResult = .ok none)
    (hq3 : env3.queryFnResult = .ok r)
    (hset3 : env3.setItemResult = .error e3) :
    createPersister cfg env1 qk = (.error e1, [.getItem (hashKey qk)])
    ∧ createPersister cfg env2 qk =
        (.error e2, [.getItem (hashKey qk), .removeItem (hashKey qk)])
    ∧ (createPersister cfg env3 qk).fst = .ok r := by
  refine ⟨?_, ?_, ?_⟩
  · unfold createPersister
    rw [hlive1, hst, hget1]
    simp only [Bool.not_false, Bool.and_true, if_true]
  · have htr : jsTruthy (.num t) = true := by
      simp only [jsTruthy, decide_eq_true_eq]
      exact ht0
    have hib : (jsSubGT env2.nowCheck (.num t) cfg.maxAge
        || !isStrEq (lookupField fs "buster".toList) cfg.buster) = true := by
      have h1 : jsSubGT env2.nowCheck (.num t) cfg.maxAge = true := by
        simp only [jsSubGT, toNum, decide_eq_true_eq]
        exact hexp
      rw [h1, Bool.true_or]
    unfold createPersister
    rw [hlive2, hst, hget2]
    simp only [Bool.not_false, Bool.and_true, if_true, hs, Option.getD, hde, jsGet, fieldOf,
      hts, htr, hib, hrem2, Bool.not_false, if_true]
  · unfold createPersister afterLookup
    rw [hlive3, hst, hget3, hq3]
    simp

theorem claim3_witness :
    createPersister cfgW envE1 qkW = (.error (.external 1), [.getItem (hashKey qkW)])
    ∧ createPersister cfgW envE2 qkW =
        (.error (.external 2), [.getItem (hashKey qkW), .removeItem (hashKey qkW)])
    ∧ (createPersister cfgW envE3 qkW).fst = .ok (.num 7) :=
  claim3_amended cfgW envE1 envE2 envE3 qkW (.external 1) (.external 2) (.external 3)
    strW
    [("timestamp".toList, .num 500), ("buster".toList, .str []),
     ("state".toList, .obj [("data".toList, .num 99)])]
    500 (.num 7)
    rfl rfl rfl rfl rfl rfl (by rfl) rfl (by decide) (by decide) rfl rfl rfl rfl rfl

/-! ### Round-trip of the default serializer and deserializer -/

mutual

/-- Is the value free of `undefined` (that is, JSON-representable)? -/
def noUndefined : JVal → Bool
  | .undefined => false
  | .arr xs => noUndefinedList xs
  | .obj fs => noUndefinedFields fs
  | _ => true

/-- All array elements free of `undefined`. -/
def noUndefinedList : List JVal → Bool
  | [] => true
  | v :: vs => noUndefined v && noUndefinedList vs

/-- All object member values free of `undefined`. -/
def noUndefinedFields : List (Str × JVal) → Bool
  | [] => true
  | p :: fs => noUndefined p.2 && noUndefinedFields fs

end

theorem noUndefined_isUndefinedined (v : JVal) (h : noUndefined v = true) : v.isUndefined = false := by
  cases v <;> first | rfl | exact absurd h (by simp [noUndefined])

theorem dropLit_append (l r : Str) : dropLit l (l ++ r) = some r := by
  induction l with
  | nil => rfl
  | cons c cs ih => simp [dropLit, ih]

theorem hexVal_of_hexDigit {n : Nat} (h : n < 16) : hexVal (hexDigit n) = some n := by
  interval_cases n <;> rfl

theorem parseStrBody_escapeChar (c : Char) (r : Str) :
    parseStrBody (escapeChar c ++ r) =
      (parseStrBody r).map (fun p => (c :: p.1, p.2)) := by
  by_cases h1 : c = '"'
  · subst h1
    rw [show escapeChar '"' ++ r = '\\' :: '"' :: r from rfl, parseStrBody.eq_def]
    cases hp : parseStrBody r with
    | none => simp [hp]
    | some p => simp [hp]
  by_cases h2 : c = '\\'
  · subst h2
    rw [show escapeChar '\\' ++ r = '\\' :: '\\' :: r from rfl, parseStrBody.eq_def]
    cases hp : parseStrBody r with
    | none => simp [hp]
    | some p => simp [hp]
  by_cases h3 : c = Char.ofNat 8
  · subst h3
    rw [show escapeChar (Char.ofNat 8) ++ r = '\\' :: 'b' :: r from rfl, parseStrBody.eq_def]
    cases hp : parseStrBody r with
    | none => simp [hp]
    | some p => simp [hp]
  by_cases h4 : c = Char.ofNat 9
  · subst h4
    rw [show escapeChar (Char.ofNat 9) ++ r = '\\' :: 't' :: r from rfl, parseStrBody.eq_def]
    cases hp : parseStrBody r with
    | none => simp [hp]
    | some p => simp [hp]
  by_cases h5 : c = Char.ofNat 10
  · subst h5
    rw [show escapeChar (Char.ofNat 10) ++ r = '\\' :: 'n' :: r from rfl, parseStrBody.eq_def]
    cases hp : parseStrBody r with
    | none => simp [hp]
    | some p => simp [hp]
  by_cases h6 : c = Char.ofNat 12
  · subst h6
    rw [show escapeChar (Char.ofNat 12) ++ r = '\\' :: 'f' :: r from rfl, parseStrBody.eq_def]
    cases hp : parseStrBody r with
    | none => simp [hp]
    | some p => simp [hp]
  by_cases h7 : c = Char.ofNat 13
  · subst h7
    rw [show escapeChar (Char.ofNat 13) ++ r = '\\' :: 'r' :: r from rfl, parseStrBody.eq_def]
    cases hp : parseStrBody r with
    | none => simp [hp]
    | some p => simp [hp]
  by_cases h8 : c.toNat < 32
  · have hdiv : c.toNat / 16 < 16 := by omega
    have hmod : c.toNat % 16 < 16 := by omega
    rw [escapeChar, if_neg h1, if_neg h2, if_neg h3, if_neg h4, if_neg h5, if_neg h6,
      if_neg h7, if_pos h8]
    simp only [List.cons_append, List.nil_append]
    rw [parseStrBody.eq_def]
    cases hp : parseStrBody r with
    | none =>
      simp [show hexVal '0' = some 0 from rfl, hexVal_of_hexDigit hdiv,
        hexVal_of_hexDigit hmod, hp]
    | some p =>
      simp [show hexVal '0' = some 0 from rfl, hexVal_of_hexDigit hdiv,
        hexVal_of_hexDigit hmod, hp]
      rw [show c.toNat / 16 * 16 + c.toNat % 16 = c.toNat from by omega, Char.ofNat_toNat]
  · rw [escapeChar, if_neg h1, if_neg h2, if_neg h3, if_neg h4, if_neg h5, if_neg h6,
      if_neg h7, if_neg h8, List.singleton_append, parseStrBody.eq_def]
    cases hp : parseStrBody r with
    | none => simp [h1, h2, hp]
    | some p => simp [h1, h2, hp]

theorem parseStrBody_escapeStr (s r : Str) :
    parseStrBody (escapeStr s ++ '"' :: r) = some (s, r) := by
  induction s with
  | nil =>
    rw [show escapeStr [] ++ '"' :: r = '"' :: r from rfl, parseStrBody.eq_def]
    rfl
  | cons c cs ih =>
    rw [escapeStr, List.append_assoc, parseStrBody_escapeChar, ih]
    rfl

/-- Does the input not start with a decimal digit (so a maximal digit run
ends there)? -/
def headNotDigit : Str → Bool
  | [] => true
  | c :: _ => !c.isDigit

theorem digitChar_isDigit (d : Nat) (h : d < 10) : (digitChar d).isDigit = true := by
  interval_cases d <;> rfl

theorem digitVal_digitChar (d : Nat) (h : d < 10) : digitVal (digitChar d) = d := by
  interval_cases d <;> rfl

theorem printNatAux_zero (fuel : Nat) : printNatAux fuel 0 = [] := by
  cases fuel <;> rfl

theorem printNatAux_digits (fuel : Nat) :
    ∀ n, ∀ c ∈ printNatAux fuel n, c.isDigit = true := by
  induction fuel with
  | zero => intro n c hc; exact absurd hc (by simp [printNatAux])
  | succ fuel ih =>
    intro n c hc
    rw [printNatAux] at hc
    by_cases hn : n = 0
    · rw [if_pos hn] at hc
      exact absurd hc (by simp)
    · rw [if_neg hn] at hc
      rcases List.mem_append.mp hc with h | h
      · exact ih (n / 10) c h
      · rcases List.mem_singleton.mp h with rfl
        exact digitChar_isDigit _ (Nat.mod_lt _ (by omega))

theorem natFromDigits_append_one (l : Str) (c : Char) :
    natFromDigits (l ++ [c]) = natFromDigits l * 10 + digitVal c := by
  simp [natFromDigits, List.foldl_append]

theorem natFromDigits_printNatAux (fuel : Nat) :
    ∀ n, 0 < n → n ≤ fuel → natFromDigits (printNatAux fuel n) = n := by
  induction fuel with
  | zero => intro n h1 h2; omega
  | succ fuel ih =>
    intro n h1 h2
    rw [printNatAux, if_neg (by omega), natFromDigits_append_one,
      digitVal_digitChar _ (Nat.mod_lt _ (by omega))]
    by_cases hq : n / 10 = 0
    · rw [hq, printNatAux_zero]
      have : natFromDigits [] = 0 := rfl
      omega
    · rw [ih (n / 10) (by omega) (by omega)]
      omega

theorem printNatAux_ne_nil (fuel n : Nat) (h1 : 0 < n) (h2 : n ≤ fuel) :
    printNatAux fuel n ≠ [] := by
  cases fuel with
  | zero => omega
  | succ fuel =>
    rw [printNatAux, if_neg (by omega)]
    simp

theorem takeDigits_append (l r : Str) (hl : ∀ c ∈ l, c.isDigit = true)
    (hr : headNotDigit r = true) : takeDigits (l ++ r) = (l, r) := by
  induction l with
  | nil =>
    cases r with
    | nil => rfl
    | cons c t =>
      rw [List.nil_append, takeDigits, if_neg ?_]
      simp only [headNotDigit, Bool.not_eq_true'] at hr
      simp [hr]
  | cons c cs ih =>
    rw [List.cons_append, takeDigits, if_pos (hl c (by simp))]
    rw [ih (fun x hx => hl x (by simp [hx]))]

theorem parseNat_printNat (n : Nat) (r : Str) (hr : headNotDigit r = true) :
    parseNat (printNat n ++ r) = some (n, r) := by
  by_cases hn : n = 0
  · subst hn
    rw [printNat, if_pos rfl, parseNat,
      takeDigits_append ['0'] r (by intro c hc; rcases List.mem_singleton.mp hc with rfl; rfl) hr]
    rfl
  · rw [printNat, if_neg hn, parseNat,
      takeDigits_append _ r (printNatAux_digits n n) hr]
    have hne := printNatAux_ne_nil n n (by omega) (by omega)
    simp only [hne, if_neg]
    rw [natFromDigits_printNatAux n n (by omega) (by omega)]
    simp [hne]

theorem printNat_cons (n : Nat) :
    ∃ c t, printNat n = c :: t ∧ c.isDigit = true := by
  by_cases hn : n = 0
  · subst hn
    exact ⟨'0', [], rfl, rfl⟩
  · rw [printNat, if_neg hn]
    cases hl : printNatAux n n with
    | nil => exact absurd hl (printNatAux_ne_nil n n (by omega) (by omega))
    | cons c t =>
      refine ⟨c, t, rfl, ?_⟩
      exact printNatAux_digits n n c (by rw [hl]; simp)

theorem parseVal_digit_start (fuel : Nat) (c : Char) (r : Str) (hc : c.isDigit = true) :
    parseVal (fuel + 1) (c :: r) =
      (match parseNat (c :: r) with
       | some (m, r2) => some (.num ((m : Int)), r2)
       | none => none) := by
  have h1 : ¬c = 'n' := fun h => by subst h; exact absurd hc (by decide)
  have h2 : ¬c = 't' := fun h => by subst h; exact absurd hc (by decide)
  have h3 : ¬c = 'f' := fun h => by subst h; exact absurd hc (by decide)
  have h4 : ¬c = '"' := fun h => by subst h; exact absurd hc (by decide)
  have h5 : ¬c = '[' := fun h => by subst h; exact absurd hc (by decide)
  have h6 : ¬c = '{' := fun h => by subst h; exact absurd hc (by decide)
  have h7 : ¬c = '-' := fun h => by subst h; exact absurd hc (by decide)
  rw [parseVal.eq_def]
  simp only [if_neg h1, if_neg h2, if_neg h3, if_neg h4, if_neg h5, if_neg h6, if_neg h7,
    if_pos hc]

/-- The characters that may legally follow a printed value inside a JSON
document (or the end of input): a comma or a closing bracket or brace. -/
def delimOk : Str → Bool
  | [] => true
  | c :: _ => decide (c = ',') || decide (c = ']') || decide (c = '}')

theorem headNotDigit_of_delimOk (r : Str) (h : delimOk r = true) : headNotDigit r = true := by
  cases r with
  | nil => rfl
  | cons c t =>
    simp only [delimOk, Bool.or_eq_true, decide_eq_true_eq] at h
    rcases h with (h | h) | h <;> subst h <;> rfl

theorem parseVal_printInt (fuel : Nat) (n : Int) (r : Str) (hr : headNotDigit r = true) :
    parseVal (fuel + 1) (printInt n ++ r) = some (.num n, r) := by
  rw [printInt]
  by_cases hn : n < 0
  · rw [if_pos hn, List.cons_append, parseVal.eq_def]
    simp only [if_neg (show ¬ '-' = 'n' from by decide), if_neg (show ¬ '-' = 't' from by decide),
      if_neg (show ¬ '-' = 'f' from by decide), if_neg (show ¬ '-' = '"' from by decide),
      if_neg (show ¬ '-' = '[' from by decide), if_neg (show ¬ '-' = '{' from by decide),
      if_pos (show '-' = '-' from rfl)]
    rw [parseNat_printNat n.natAbs r hr]
    show some (JVal.num (-((n.natAbs : Nat) : Int)), r) = some (.num n, r)
    rw [show -((n.natAbs : Nat) : Int) = n from by omega]
  · obtain ⟨c, t, hct, hcd⟩ := printNat_cons n.toNat
    rw [if_neg hn, hct, List.cons_append, parseVal_digit_start fuel c (t ++ r) hcd,
      ← List.cons_append, ← hct, parseNat_printNat n.toNat r hr]
    show some (JVal.num (((n.toNat : Nat) : Int)), r) = some (.num n, r)
    rw [show ((n.toNat : Nat) : Int) = n from by omega]

/-- The printed continuation of the remaining elements of an array:
a comma and the printed element, for each element. -/
def elemsTail : List JVal → Str
  | [] => []
  | v :: vs => ',' :: printVal v ++ elemsTail vs

/-- The printed continuation of the remaining members of an object. -/
def membersTail : List (Str × JVal) → Str
  | [] => []
  | (k, v) :: fs => ',' :: (printStr k ++ ':' :: printVal v) ++ membersTail fs

theorem joinComma_cons (s : Str) (l : List Str) (h : l ≠ []) :
    joinComma (s :: l) = s ++ ',' :: joinComma l := by
  cases l with
  | nil => exact absurd rfl h
  | cons a t => rfl

theorem joinComma_collectElems (x : JVal) (xs : List JVal) :
    joinComma (collectElems (x :: xs)) = printVal x ++ elemsTail xs := by
  induction xs generalizing x with
  | nil => simp [collectElems, joinComma, elemsTail]
  | cons y ys ih =>
    rw [collectElems, collectElems, joinComma_cons _ _ (by rw [collectElems.eq_def]; simp)]
    rw [show printVal y :: collectElems ys = collectElems (y :: ys) from rfl, ih y, elemsTail]
    simp

theorem collectMembers_eq (fs : List (Str × JVal)) (h : noUndefinedFields fs = true) :
    collectMembers fs = fs.map (fun p => printStr p.1 ++ ':' :: printVal p.2) := by
  induction fs with
  | nil => rfl
  | cons p fs ih =>
    rw [noUndefinedFields, Bool.and_eq_true] at h
    obtain ⟨k, v⟩ := p
    rw [collectMembers, if_neg (by rw [noUndefined_isUndefinedined _ h.1]; simp), ih h.2]
    rfl

theorem joinComma_map_members (m : Str) (fs : List (Str × JVal)) :
    joinComma (m :: fs.map (fun p => printStr p.1 ++ ':' :: printVal p.2)) =
      m ++ membersTail fs := by
  induction fs generalizing m with
  | nil => simp [joinComma, membersTail]
  | cons p t ih =>
    obtain ⟨k, v⟩ := p
    rw [List.map_cons, joinComma_cons _ _ (by simp), ih, membersTail]
    simp

theorem printVal_arr_cons (x : JVal) (xs : List JVal) :
    printVal (.arr (x :: xs)) = '[' :: ((printVal x ++ elemsTail xs) ++ [']']) := by
  rw [show printVal (.arr (x :: xs)) =
    '[' :: (joinComma (collectElems (x :: xs)) ++ [']']) from rfl]
  rw [joinComma_collectElems]

theorem printVal_obj_cons (k : Str) (v : JVal) (fs : List (Str × JVal))
    (h : noUndefinedFields ((k, v) :: fs) = true) :
    printVal (.obj ((k, v) :: fs)) =
      '{' :: (((printStr k ++ ':' :: printVal v) ++ membersTail fs) ++ ['}']) := by
  rw [show printVal (.obj ((k, v) :: fs)) =
    '{' :: (joinComma (collectMembers ((k, v) :: fs)) ++ ['}']) from rfl]
  rw [collectMembers_eq _ h, List.map_cons, joinComma_map_members]

theorem printVal_pos (v : JVal) : 0 < (printVal v).length := by
  cases v with
  | undefined => decide
  | null => decide
  | bool b => cases b <;> decide
  | num n =>
    rw [show printVal (.num n) = printInt n from rfl, printInt]
    by_cases hn : n < 0
    · rw [if_pos hn]
      simp
    · rw [if_neg hn]
      obtain ⟨c, t, hct, _⟩ := printNat_cons n.toNat
      rw [hct]
      simp
  | str s => simp [printVal, printStr]
  | arr xs => simp [printVal]
  | obj fs => simp [printVal]

theorem printVal_head_ne (v : JVal) :
    ∃ c t, printVal v = c :: t ∧ ¬(c = ']') ∧ ¬(c = '}') := by
  cases v with
  | undefined => exact ⟨'n', _, rfl, by decide, by decide⟩
  | null => exact ⟨'n', _, rfl, by decide, by decide⟩
  | bool b => cases b
               <;> first
                 | exact ⟨'t', _, rfl, by decide, by decide⟩
                 | exact ⟨'f', _, rfl, by decide, by decide⟩
  | num n =>
    rw [show printVal (.num n) = printInt n from rfl, printInt]
    by_cases hn : n < 0
    · rw [if_pos hn]
      exact ⟨'-', _, rfl, by decide, by decide⟩
    · rw [if_neg hn]
      obtain ⟨c, t, hct, hcd⟩ := printNat_cons n.toNat
      exact ⟨c, t, hct, fun h => by subst h; exact absurd hcd (by decide),
             fun h => by subst h; exact absurd hcd (by decide)⟩
  | str s => exact ⟨'"', escapeStr s ++ ['"'], rfl, by decide, by decide⟩
  | arr xs => exact ⟨'[', _, rfl, by decide, by decide⟩
  | obj fs => exact ⟨'{', _, rfl, by decide, by decide⟩

theorem parseVal_lbracket (fuel : Nat) (c : Char) (t : Str)
    (hc : ¬(c = ']')) :
    parseVal (fuel + 1) ('[' :: (c :: t)) =
      (match parseElems fuel (c :: t) with
       | some (vs, r2) => some (.arr vs, r2)
       | none => none) := by
  rw [parseVal.eq_def]
  simp [hc]

theorem parseVal_lbrace (fuel : Nat) (c : Char) (t : Str)
    (hc : ¬(c = '}')) :
    parseVal (fuel + 1) ('{' :: (c :: t)) =
      (match parseMembers fuel (c :: t) with
       | some (fs, r2) => some (.obj fs, r2)
       | none => none) := by
  rw [parseVal.eq_def]
  simp [hc]

/-- The printed form of a JSON-representable value parses back to exactly that
value (mutually with the element and member parsers), given enough fuel. -/
theorem parse_print (fuel : Nat) :
    (∀ v r, noUndefined v = true → (printVal v).length ≤ fuel → delimOk r = true →
       parseVal fuel (printVal v ++ r) = some (v, r))
    ∧ (∀ v vs r, noUndefined v = true → noUndefinedList vs = true →
        (printVal v).length + (elemsTail vs).length + 1 ≤ fuel → delimOk r = true →
        parseElems fuel (printVal v ++ (elemsTail vs ++ ']' :: r)) = some (v :: vs, r))
    ∧ (∀ k v fs r, noUndefined v = true → noUndefinedFields fs = true →
        (printStr k).length + 1 + (printVal v).length + (membersTail fs).length + 1 ≤ fuel →
        delimOk r = true →
        parseMembers fuel (printStr k ++ ':' :: (printVal v ++ (membersTail fs ++ '}' :: r))) =
          some ((k, v) :: fs, r)) := by
  induction fuel with
  | zero =>
    refine ⟨?_, ?_, ?_⟩
    · intro v r _ hlen _
      have := printVal_pos v
      omega
    · intro v vs r _ _ hlen _
      omega
    · intro k v fs r _ _ hlen _
      omega
  | succ fuel ih =>
    obtain ⟨ihA, ihB, ihC⟩ := ih
    refine ⟨?_, ?_, ?_⟩
    · intro v r hnu hlen hdel
      cases v with
      | undefined => exact absurd hnu (by simp [noUndefined])
      | null =>
        rw [show printVal .null ++ r = 'n' :: 'u' :: 'l' :: 'l' :: r from rfl, parseVal.eq_def]
        simp [dropLit]
      | bool b =>
        cases b with
        | true =>
          rw [show printVal (.bool true) ++ r = 't' :: 'r' :: 'u' :: 'e' :: r from rfl,
            parseVal.eq_def]
          simp [dropLit]
        | false =>
          rw [show printVal (.bool false) ++ r = 'f' :: 'a' :: 'l' :: 's' :: 'e' :: r from rfl,
            parseVal.eq_def]
          simp [dropLit]
      | num n => exact parseVal_printInt fuel n r (headNotDigit_of_delimOk r hdel)
      | str s =>
        rw [show printVal (.str s) ++ r = '"' :: (escapeStr s ++ '"' :: r) from by
          simp [printVal, printStr], parseVal.eq_def]
        simp [parseStrBody_escapeStr]
      | arr xs =>
        cases xs with
        | nil =>
          rw [show printVal (.arr []) ++ r = '[' :: ']' :: r from rfl, parseVal.eq_def]
          simp
        | cons x xs =>
          rw [noUndefined, noUndefinedList, Bool.and_eq_true] at hnu
          rw [printVal_arr_cons] at hlen
          simp only [List.length_cons, List.length_append] at hlen
          rw [printVal_arr_cons]
          obtain ⟨c, t, hct, hc1, _⟩ := printVal_head_ne x
          rw [show ('[' :: ((printVal x ++ elemsTail xs) ++ [']'])) ++ r
              = '[' :: (c :: (t ++ (elemsTail xs ++ ']' :: r))) from by rw [hct]; simp]
          rw [parseVal_lbracket fuel c _ hc1]
          rw [show c :: (t ++ (elemsTail xs ++ ']' :: r))
              = printVal x ++ (elemsTail xs ++ ']' :: r) from by rw [hct]; simp]
          rw [ihB x xs r hnu.1 hnu.2 (by have := printVal_pos x; omega) hdel]
      | obj fs =>
        cases fs with
        | nil =>
          rw [show printVal (.obj []) ++ r = '{' :: '}' :: r from rfl, parseVal.eq_def]
          simp
        | cons kv fs =>
          obtain ⟨k, v⟩ := kv
          rw [noUndefined] at hnu
          have hparts := hnu
          rw [noUndefinedFields, Bool.and_eq_true] at hparts
          rw [printVal_obj_cons k v fs hnu] at hlen
          simp only [List.length_cons, List.length_append] at hlen
          rw [printVal_obj_cons k v fs hnu]
          rw [show ('{' :: (((printStr k ++ ':' :: printVal v) ++ membersTail fs) ++ ['}'])) ++ r
              = '{' :: ('"' :: (escapeStr k ++ '"' :: (':' :: (printVal v ++ (membersTail fs ++ '}' :: r))))) from by
            simp [printStr]]
          rw [parseVal_lbrace fuel '"' _ (by decide)]
          rw [show ('"' :: (escapeStr k ++ '"' :: (':' :: (printVal v ++ (membersTail fs ++ '}' :: r)))))
              = printStr k ++ ':' :: (printVal v ++ (membersTail fs ++ '}' :: r)) from by
            simp [printStr]]
          rw [ihC k v fs r hparts.1 hparts.2 (by simp [printStr] at hlen ⊢; omega) hdel]
    · intro v vs r hnv hnvs hlen hdel
      have hdel2 : delimOk (elemsTail vs ++ ']' :: r) = true := by
        cases vs with
        | nil => rfl
        | cons y ys => rfl
      rw [parseElems.eq_def]
      simp only []
      rw [ihA v (elemsTail vs ++ ']' :: r) hnv (by omega) hdel2]
      cases vs with
      | nil => simp [elemsTail]
      | cons y ys =>
        rw [noUndefinedList, Bool.and_eq_true] at hnvs
        rw [show elemsTail (y :: ys) ++ ']' :: r
            = ',' :: (printVal y ++ (elemsTail ys ++ ']' :: r)) from by simp [elemsTail]]
        have hbound : (printVal y).length + (elemsTail ys).length + 1 ≤ fuel := by
          simp only [elemsTail, List.length_cons, List.length_append] at hlen
          have := printVal_pos v
          omega
        show (match parseElems fuel (printVal y ++ (elemsTail ys ++ ']' :: r)) with
              | some (vs, r3) => some ((v :: vs : List JVal), r3)
              | none => none) = some (v :: y :: ys, r)
        rw [ihB y ys r hnvs.1 hnvs.2 hbound hdel]
    · intro k v fs r hnv hnfs hlen hdel
      have hdel3 : delimOk (membersTail fs ++ '}' :: r) = true := by
        cases fs with
        | nil => rfl
        | cons p t =>
          obtain ⟨k2, v2⟩ := p
          rfl
      rw [show printStr k ++ ':' :: (printVal v ++ (membersTail fs ++ '}' :: r))
          = '"' :: (escapeStr k ++ '"' :: (':' :: (printVal v ++ (membersTail fs ++ '}' :: r)))) from by
        simp [printStr]]
      rw [parseMembers.eq_def]
      simp only []
      rw [parseStrBody_escapeStr]
      simp only []
      rw [ihA v (membersTail fs ++ '}' :: r) hnv (by omega) hdel3]
      cases fs with
      | nil => simp [membersTail]
      | cons p t =>
        obtain ⟨k2, v2⟩ := p
        rw [noUndefinedFields, Bool.and_eq_true] at hnfs
        rw [show membersTail ((k2, v2) :: t) ++ '}' :: r
            = ',' :: (printStr k2 ++ ':' :: (printVal v2 ++ (membersTail t ++ '}' :: r))) from by
          simp [membersTail]]
        have hbound : (printStr k2).length + 1 + (printVal v2).length + (membersTail t).length + 1 ≤ fuel := by
          simp only [membersTail, List.length_cons, List.length_append] at hlen
          have := printVal_pos v
          omega
        show (match parseMembers fuel (printStr k2 ++ ':' :: (printVal v2 ++ (membersTail t ++ '}' :: r))) with
              | some (fs2, r6) => some (((k, v) :: fs2 : List (Str × JVal)), r6)
              | none => none) = some ((k, v) :: (k2, v2) :: t, r)
        rw [ihC k2 v2 t r hnfs.1 hnfs.2 hbound hdel]

theorem serializeD_eq_printVal (v : JVal) (h : noUndefined v = true) :
    serializeD v = printVal v := by
  cases v with
  | undefined => exact absurd h (by simp [noUndefined])
  | null => rfl
  | bool b => rfl
  | num n => rfl
  | str s => rfl
  | arr xs => rfl
  | obj fs => rfl

/-- Parsing the printed form of a JSON-representable value with the default
deserializer recovers the value exactly. -/
theorem parseD_serializeD (v : JVal) (h : noUndefined v = true) :
    parseD (serializeD v) = .ok v := by
  rw [serializeD_eq_printVal v h]
  have hpp := (parse_print ((printVal v).length + 1)).1 v [] h (by omega) rfl
  rw [show printVal v ++ ([] : Str) = printVal v from by simp] at hpp
  rw [parseD, hpp]

theorem noUndefined_freshRecord (cfg : Config) (env : Env) (qk : JVal) (qh : Str) (r : JVal)
    (hr : noUndefined r = true) (hk : noUndefined qk = true) :
    noUndefined (freshRecord cfg env qk qh r) = true := by
  simp [freshRecord, freshState, noUndefined, noUndefinedFields, hr, hk]

/-- Claim C8 (amended): serializing then deserializing, with the default
encoders, the fresh record the wrapper writes (any JSON-representable fetch
result and query key, any hash, timestamps and buster) yields a record equal
in all fields to the original.  (The unamended claim, over arbitrary
JavaScript data, fails when the data contains `undefined`; see the
counterexample.) -/
theorem claim8_roundtrip (cfg : Config) (env : Env) (qk : JVal) (r : JVal)
    (hr : noUndefined r = true) (hk : noUndefined qk = true) :
    parseD (serializeD (freshRecord cfg env qk (hashKey qk) r)) =
      .ok (freshRecord cfg env qk (hashKey qk) r) :=
  parseD_serializeD _ (noUndefined_freshRecord cfg env qk (hashKey qk) r hr hk)

/-- Sample JSON-representable fetch result exercising every printed form. -/
def dataW : JVal :=
  .arr [.num 1, .num (-25), .str "hi".toList, .null, .bool true, .bool false,
        .obj [("k".toList, .str [])], .arr []]

theorem claim8_witness :
    parseD (serializeD (freshRecord cfgW envW qkW (hashKey qkW) dataW)) =
      .ok (freshRecord cfgW envW qkW (hashKey qkW) dataW) :=
  claim8_roundtrip cfgW envW qkW dataW rfl rfl

set_option maxRecDepth 4000 in
/-- Claim C8 as stated is refuted by a fetch result containing `undefined`:
the serialized form drops the `undefined`-valued member, so deserialization
yields a record whose state data lost that member. -/
theorem claim8_counterexample :
    parseD (serializeD (freshRecord cfgW envW qkW (hashKey qkW) (.obj [("a".toList, .undefined)])))
      ≠ .ok (freshRecord cfgW envW qkW (hashKey qkW) (.obj [("a".toList, .undefined)])) := by
  intro h
  have h2 : parseD (serializeD (freshRecord cfgW envW qkW (hashKey qkW)
      (.obj [("a".toList, .undefined)])))
      = .ok (freshRecord cfgW envW qkW (hashKey qkW) (.obj [])) := by rfl
  rw [h2] at h
  simp [freshRecord, freshState] at h
